import Mathlib

/-!
# Verification of the Twitter-bot automation scheduler

A shallow embedding of the scheduling / publication state machine of the
`Twitter-bot-automation` repository, together with proofs about it.

Sources embedded here:
* `src/scheduled_poster.ts` — the newer orchestrator (`main`, `getRandomVariationMs`);
* `unnamed/part_002`       — the window-based orchestrator variant
  (`isTimeToPost`, `resetOrphanedPosts`, `findReadyPost`, `needToPreparePosts`,
  `main`, and the `uncaughtException` handler);
* `src/post_writer.ts`     — content generation / validation (`generateNewPost`,
  `preparePostData`, `updateArticleStatus`, `fetchPendingArticle`) and the
  browser publication routine (`publishTwitterPost`);
* `unnamed/part_001`       — the legacy `publishTwitterPost` variant.

Modelling conventions:
* Timestamps are integer epoch milliseconds (`Int`); the jitter computation,
  which multiplies `Math.random()` by constants, is modelled over `ℚ` with the
  random draw passed in as an argument in `[0, 1)`.
* The Supabase `posts` table is a `List PostRecord`; `posts_news` is a
  `List ArticleRecord`.  Row ids are the primary key, so `update ... eq id`
  is modelled as a map over the list guarded on the id.
* External effects (the OpenAI reply, the article fetch, the browser
  publish outcome) are supplied as oracle inputs; all persistent-store logic
  and all validation logic is translated from the source.
* Database-error branches (a Supabase query returning `error`) are not
  modelled: store operations are total here.
-/

/-- Status column of the `posts` table.  The union of the string literals the
repository actually writes (`'ready_to_post'`, `'posted'`, `'failed_to_post'`,
`'generation_failed'`, `'missed_schedule'`, `'system_error'`) plus the
`'pending'` member of the `PostLogEntry` type. -/
inductive PostStatus where
  | pending
  | posted
  | failed_to_post
  | generation_failed
  | ready_to_post
  | missed_schedule
  | system_error
deriving DecidableEq, Repr

/-- A row of the `posts` table (the fields of `PostLogEntry` that the
orchestrators read or write). -/
structure PostRecord where
  id : Nat
  topic : Option String := none
  posted_text : Option String := none
  post_url : Option String := none
  status : PostStatus := .pending
  error_message : Option String := none
  scheduled_time_utc : Option Int := none
  posted_at_utc : Option Int := none
deriving DecidableEq, Repr

/-- The `posts` table. -/
abbrev Store := List PostRecord

/-- Status column of the `posts_news` table. -/
inductive ArticleStatus where
  | pending
  | processed
  | posted
  | failed
deriving DecidableEq, Repr

/-- A row of the `posts_news` table (fields of `ArticleData` used by
`preparePostData`). -/
structure ArticleRecord where
  id : Nat
  article : String
  timestamp : Int := 0
  status : ArticleStatus := .pending
  error_message : Option String := none
deriving DecidableEq, Repr

/- ### Constants (scheduled_poster.ts lines 15-17, part_002 lines 15-23) -/

/-- `const HOURS_BETWEEN_POSTS = 6`. -/
def HOURS_BETWEEN_POSTS : ℚ := 6

/-- `const MAX_TIME_VARIATION_MS = 30 * 60 * 1000`. -/
def MAX_TIME_VARIATION_MS : ℚ := 30 * 60 * 1000

/-- `const MIN_TIME_BEFORE_FIRST_POST_MS = 0`. -/
def MIN_TIME_BEFORE_FIRST_POST_MS : ℚ := 0

/-- `const SCHEDULE_BUFFER_MINUTES = 30` (part_002 line 21), in ms. -/
def SCHEDULE_BUFFER_MS : Int := 30 * 60 * 1000

/-- `const SCHEDULE_GRACE_PERIOD_HOURS = 2` (part_002 line 23), in ms. -/
def SCHEDULE_GRACE_PERIOD_MS : Int := 2 * 60 * 60 * 1000

/-- The `resetOrphanedPosts` cutoff distance
`(SCHEDULE_GRACE_PERIOD_HOURS + 1)` hours (part_002 line 74), in ms. -/
def ORPHAN_CUTOFF_MS : Int := (2 + 1) * 60 * 60 * 1000

/- ### Schedule planner (scheduled_poster.ts lines 35-37 and 148-166,
     part_002 lines 40-42 and 280-307) -/

/-- `getRandomVariationMs()` returns `(Math.random() * 2 - 1) * MAX_TIME_VARIATION_MS`;
the `Math.random()` draw (a value in `[0,1)`) is the argument `rnd`. -/
def getRandomVariationMs (rnd : ℚ) : ℚ :=
  (rnd * 2 - 1) * MAX_TIME_VARIATION_MS

/-- The anchored next-slot arithmetic
`lastPostTimestampForScheduling.getTime() + (HOURS_BETWEEN_POSTS * 60 * 60 * 1000) + getRandomVariationMs()`
(scheduled_poster.ts line 152 = part_002 line 285). -/
def nextSlotAnchored (lastPublishedAt rnd : ℚ) : ℚ :=
  lastPublishedAt + HOURS_BETWEEN_POSTS * 60 * 60 * 1000 + getRandomVariationMs rnd

/-- The not-in-the-past adjustment shared by both `main` variants
(`if (!postImmediately && nextScheduledTimeUTC.getTime() < Date.now()) ...`,
part_002 lines 303-307 and scheduled_poster.ts lines 163-166): when the
computed time `tp.1` of a non-immediate slot lies before `now`, it is replaced
by `now + extra`. -/
def clampPast (now extra : ℚ) (tp : ℚ × Bool) : ℚ × Bool :=
  if ¬ tp.2 ∧ tp.1 < now then (now + extra, tp.2) else tp

/-- The pre-clamp schedule computation of `part_002` `main` (lines 283-300):
the pair (computed time, `postImmediately`).  `anchor` is
`lastPostTimestampForScheduling` (none = bootstrap). -/
def scheduleBaseP2 (now : ℚ) (anchor : Option ℚ) (rnd : ℚ) : ℚ × Bool :=
  match anchor with
  | some last => (nextSlotAnchored last rnd, false)
  | none =>
    if MIN_TIME_BEFORE_FIRST_POST_MS = 0 then (now, true)
    else (now + MIN_TIME_BEFORE_FIRST_POST_MS + getRandomVariationMs rnd, false)

/-- Next-schedule computation of `part_002` `main` (lines 280-307); `rndClamp`
is the fresh jitter draw of the clamp (line 305:
`Date.now() + Math.abs(getRandomVariationMs())` — no extra delay). -/
def nextScheduledTimeP2 (now : ℚ) (anchor : Option ℚ) (rnd rndClamp : ℚ) : ℚ × Bool :=
  clampPast now (|getRandomVariationMs rndClamp|) (scheduleBaseP2 now anchor rnd)

/-- The pre-clamp schedule computation of `scheduled_poster.ts` `main` (lines
148-161).  Difference from `scheduleBaseP2`: the bootstrap-immediate branch
also requires that no ready post was processed in this run
(`!processedPostIdInThisRun`, line 154). -/
def scheduleBaseSP (now : ℚ) (anchor : Option ℚ) (processedPostIdInThisRun : Bool)
    (rnd : ℚ) : ℚ × Bool :=
  match anchor with
  | some last => (nextSlotAnchored last rnd, false)
  | none =>
    if MIN_TIME_BEFORE_FIRST_POST_MS = 0 ∧ ¬ processedPostIdInThisRun then (now, true)
    else (now + MIN_TIME_BEFORE_FIRST_POST_MS + getRandomVariationMs rnd, false)

/-- Next-schedule computation of `scheduled_poster.ts` `main` (lines 148-166);
its past-time clamp adds a one minute delay (line 165:
`Date.now() + (1 * 60 * 1000) + Math.abs(getRandomVariationMs())`). -/
def nextScheduledTimeSP (now : ℚ) (anchor : Option ℚ) (processedPostIdInThisRun : Bool)
    (rnd rndClamp : ℚ) : ℚ × Bool :=
  clampPast now (1 * 60 * 1000 + |getRandomVariationMs rndClamp|)
    (scheduleBaseSP now anchor processedPostIdInThisRun rnd)

/- ### List helpers: a stable insertion sort modelling the store's
     `order(column)` clause, and update-by-id -/

/-- Insert `a` into a list before the first element `b` with `le a b`
(standard stable insertion step). -/
def insertSorted (le : α → α → Bool) (a : α) : List α → List α
  | [] => [a]
  | b :: bs => if le a b then a :: b :: bs else b :: insertSorted le a bs

/-- Stable insertion sort; models the row order produced by the store's
`order(...)` clause. -/
def sortBy (le : α → α → Bool) : List α → List α
  | [] => []
  | a :: as => insertSorted le a (sortBy le as)

theorem mem_insertSorted (le : α → α → Bool) (a x : α) (l : List α) :
    x ∈ insertSorted le a l ↔ x = a ∨ x ∈ l := by
  induction l with
  | nil => simp [insertSorted]
  | cons b bs ih =>
    simp only [insertSorted]
    by_cases h : le a b = true
    · simp [h]
    · simp only [if_neg h, List.mem_cons, ih]
      tauto

theorem mem_sortBy (le : α → α → Bool) (x : α) (l : List α) :
    x ∈ sortBy le l ↔ x ∈ l := by
  induction l with
  | nil => simp [sortBy]
  | cons a as ih => simp [sortBy, mem_insertSorted, ih]

theorem countP_insertSorted (le : α → α → Bool) (p : α → Bool) (a : α) (l : List α) :
    List.countP p (insertSorted le a l) = List.countP p (a :: l) := by
  induction l with
  | nil => simp [insertSorted]
  | cons b bs ih =>
    simp only [insertSorted]
    by_cases h : le a b = true
    · simp [h]
    · simp only [if_neg h, List.countP_cons, ih]
      omega

theorem countP_sortBy (le : α → α → Bool) (p : α → Bool) (l : List α) :
    List.countP p (sortBy le l) = List.countP p l := by
  induction l with
  | nil => rfl
  | cons a as ih => simp [sortBy, countP_insertSorted, List.countP_cons, ih]

/-- `update ... eq('id', pid)` on the `posts` table: apply `f` to every row
whose id is `pid` (ids are the primary key, so at most one row in practice). -/
def updatePostById (store : Store) (pid : Nat) (f : PostRecord → PostRecord) : Store :=
  store.map fun p => if p.id = pid then f p else p

/-- Fresh primary key for an insert (Supabase auto-increment). -/
def freshId (store : Store) : Nat :=
  (store.map (·.id)).foldr max 0 + 1

/- ### Posting window (part_002 lines 45-66) -/

/-- `isTimeToPost(scheduledTime)`: `now >= scheduledTime - 30min && now <= scheduledTime + 2h`. -/
def isTimeToPost (now scheduledTime : Int) : Bool :=
  let bufferWindowStart := scheduledTime - SCHEDULE_BUFFER_MS
  let gracePeriodEnd := scheduledTime + SCHEDULE_GRACE_PERIOD_MS
  decide (bufferWindowStart ≤ now) && decide (now ≤ gracePeriodEnd)

/- ### Missed-schedule reconciler (part_002 lines 69-108) -/

/-- The selection filter of `resetOrphanedPosts`:
`eq('status','ready_to_post')` and `lt('scheduled_time_utc', now - 3h)`
(a SQL `lt` against a null column is false). -/
def isOrphaned (now : Int) (p : PostRecord) : Bool :=
  decide (p.status = .ready_to_post) &&
    (match p.scheduled_time_utc with
     | some s => decide (s < now - ORPHAN_CUTOFF_MS)
     | none => false)

/-- The update applied to each selected orphan (part_002 lines 94-100); the
error message in the source interpolates the due/detected timestamps, elided
here (no claim depends on its text, only on its non-nullness). -/
def orphanUpdate (p : PostRecord) : PostRecord :=
  { p with status := .missed_schedule,
           error_message := some "Post missed its scheduled time." }

/-- `resetOrphanedPosts()`: select the orphaned rows and update each by id.
With ids as primary key this is the per-row conditional update below. -/
def resetOrphanedPosts (now : Int) (store : Store) : Store :=
  store.map fun p => if isOrphaned now p then orphanUpdate p else p

/- ### findReadyPost (part_002 lines 111-150) -/

/-- Row order of `order('scheduled_time_utc', { ascending: true })`;
null timestamps sort last (PostgREST default `nullslast` for ascending). -/
def schedLE (p q : PostRecord) : Bool :=
  match p.scheduled_time_utc, q.scheduled_time_utc with
  | some a, some b => decide (a ≤ b)
  | some _, none => true
  | none, some _ => false
  | none, none => true

/-- `new Date(post.scheduled_time_utc!)`: a null column coerces to epoch 0
(`new Date(null)` is the epoch). -/
def schedTimeOf (p : PostRecord) : Int :=
  p.scheduled_time_utc.getD 0

/-- `findReadyPost()`: fetch up to 5 `ready_to_post` rows ordered by
`scheduled_time_utc` ascending, and return the first whose scheduled time is
within the posting window. -/
def findReadyPost (now : Int) (store : Store) : Option PostRecord :=
  let readyPosts := (sortBy schedLE (store.filter fun p => decide (p.status = .ready_to_post))).take 5
  readyPosts.find? fun p => isTimeToPost now (schedTimeOf p)

/- ### scheduled_poster.ts publish check (lines 48-67): earliest ready row,
     published when `scheduledTime <= now` (no buffer, no grace bound) -/

/-- The single `ready_to_post` row `scheduled_poster.ts` `main` fetches
(lines 48-53): earliest by `scheduled_time_utc`, limit 1. -/
def findReadyPostSP (store : Store) : Option PostRecord :=
  (sortBy schedLE (store.filter fun p => decide (p.status = .ready_to_post))).head?

/-- The publish decision of `scheduled_poster.ts` `main` (line 67):
the fetched row is published iff `scheduledTime <= now`. -/
def spDuePost (now : Int) (store : Store) : Option PostRecord :=
  match findReadyPostSP store with
  | some p => if schedTimeOf p ≤ now then some p else none
  | none => none

/- ### Publication executor (post_writer.ts lines 555-788,
     part_001 lines 478-666) -/

/-- Outcome of one iteration of the posting loop, as seen by the embedding:
either the editor was filled, the post button clicked and the fixed settle
wait completed (`success`, carrying the best-effort permalink recovery result
— the `href` found on the profile page, if any), or an exception was thrown
somewhere in the attempt (`failure`). -/
inductive AttemptResult where
  | success (recovered : Option String)
  | failure
deriving DecidableEq, Repr

/-- `postUrl` value after a successful attempt in `src/post_writer.ts`
(lines 722-744): the `POSTED_SUCCESSFULLY` marker is set first and replaced by
`https://x.com` + link only when the permalink recovery succeeds. -/
def urlOfAttempt : Option String → String
  | some link => "https://x.com" ++ link
  | none => "POSTED_SUCCESSFULLY"

/-- The retry loop of `src/post_writer.ts` `publishTwitterPost`
(`while (retryCount <= maxRetries)`, lines 617-775): `k` is the index of the
current attempt, the second argument the number of retries still allowed
(`maxRetries - retryCount`).  Returns the final `postUrl` and the number of
attempts made. -/
def postingLoop (attempts : Nat → AttemptResult) (k : Nat) : Nat → Option String × Nat
  | 0 =>
    (match attempts k with
     | .success r => some (urlOfAttempt r)
     | .failure => none, 1)
  | n + 1 =>
    match attempts k with
    | .success r => (some (urlOfAttempt r), 1)
    | .failure =>
      let rest := postingLoop attempts (k + 1) n
      (rest.1, rest.2 + 1)

/-- `publishTwitterPost(postText)` of `src/post_writer.ts` (lines 555-788).
`sessionValid` is the outcome of the up-front login verification (lines
584-614: the home-timeline element check); when it is false the function
returns null having made no posting attempt.  Otherwise the posting loop runs
with `maxRetries = 2` (up to 3 attempts).  Result: the returned `postUrl` and
the number of posting attempts made. -/
def publishTwitterPost (sessionValid : Bool) (attempts : Nat → AttemptResult) :
    Option String × Nat :=
  if sessionValid then postingLoop attempts 0 2 else (none, 0)

/-- The retry loop of the legacy `part_001` `publishTwitterPost` (lines
507-653).  Difference from `postingLoop`: after a successful submit the code
never sets a placeholder, so `postUrl` remains null unless the permalink
recovery succeeds (lines 598-623). -/
def postingLoopLegacy (attempts : Nat → AttemptResult) (k : Nat) : Nat → Option String × Nat
  | 0 =>
    (match attempts k with
     | .success (some link) => some ("https://x.com" ++ link)
     | .success none => none
     | .failure => none, 1)
  | n + 1 =>
    match attempts k with
    | .success (some link) => (some ("https://x.com" ++ link), 1)
    | .success none => (none, 1)
    | .failure =>
      let rest := postingLoopLegacy attempts (k + 1) n
      (rest.1, rest.2 + 1)

/-- `publishTwitterPost(postText)` of `part_001` (lines 478-666): no login
pre-check, `maxRetries = 2`. -/
def publishTwitterPostLegacy (attempts : Nat → AttemptResult) : Option String × Nat :=
  postingLoopLegacy attempts 0 2

/- ### Content generator (post_writer.ts lines 256-367) -/

/-- Lower-casing as used by `toLowerCase()`; modelled characterwise. -/
def lowerChars (l : List Char) : List Char := l.map Char.toLower

/-- Substring test, modelling JavaScript `String.prototype.includes`. -/
def listContainsSub (pat : List Char) : List Char → Bool
  | [] => pat.isEmpty
  | c :: rest => pat.isPrefixOf (c :: rest) || listContainsSub pat rest

/-- `s.includes(pat)`. -/
def containsSub (s pat : String) : Bool := listContainsSub pat.data s.data

/-- `s.toLowerCase()`. -/
def lowerStr (s : String) : String := String.mk (lowerChars s.data)

/-- `s.trim()`. -/
def trimStr (s : String) : String :=
  String.mk (((s.data.dropWhile Char.isWhitespace).reverse.dropWhile Char.isWhitespace).reverse)

/-- Suffix of `l` after the first case-insensitive occurrence of `pat`
(none when `pat` does not occur): the capture of the regex `/pat(.*)/is`. -/
def findAfterCI (pat : List Char) : List Char → Option (List Char)
  | [] => if pat.isEmpty then some [] else none
  | c :: rest =>
    if lowerChars pat |>.isPrefixOf (lowerChars (c :: rest)) then
      some ((c :: rest).drop pat.length)
    else
      findAfterCI pat rest

/-- The `tweetMatch` extraction of `generateNewPost`
(`rawResponse.match(/Tweet:(.*)/is)` then `.trim()`, post_writer.ts lines
334 and 348-349). -/
def extractTweetRaw (rawResponse : String) : Option String :=
  (findAfterCI "Tweet:".data rawResponse.data).map fun l => trimStr (String.mk l)

/-- The rejection test applied to the extracted tweet (post_writer.ts line 351):
`newTweetText.toLowerCase().includes("error") || newTweetText.length < 10 || newTweetText.includes("?")`. -/
def tweetRejected (t : String) : Bool :=
  containsSub (lowerStr t) "error" || decide (t.length < 10) || containsSub t "?"

/-- The tweet produced by one `generateNewPost` call, as a function of the raw
model reply (post_writer.ts lines 328-358): extract the `Tweet:` section,
return none when extraction fails or the validation rejects it. -/
def generateNewPostTweet (rawResponse : String) : Option String :=
  match extractTweetRaw rawResponse with
  | some t => if tweetRejected t then none else some t
  | none => none

/- ### Article-mode preparation (post_writer.ts lines 148-229 and 370-467) -/

/-- The `posts_news` table. -/
abbrev Articles := List ArticleRecord

/-- Row order of `order('timestamp', { ascending: true })` on `posts_news`. -/
def articleTimestampLE (a b : ArticleRecord) : Bool :=
  decide (a.timestamp ≤ b.timestamp)

/-- `fetchPendingArticle()` (post_writer.ts lines 148-175): earliest pending
article by timestamp, limit 1. -/
def fetchPendingArticle (articles : Articles) : Option ArticleRecord :=
  (sortBy articleTimestampLE (articles.filter fun a => decide (a.status = .pending))).head?

/-- `updateArticleStatus(articleId, status, errorMessage?)` (post_writer.ts
lines 178-204): update status by id; the error-message column is written only
when a message is given. -/
def updateArticleStatus (articles : Articles) (articleId : Nat) (status : ArticleStatus)
    (errorMessage : Option String) : Articles :=
  articles.map fun a =>
    if a.id = articleId then
      { a with status := status,
               error_message := match errorMessage with
                 | some m => some m
                 | none => a.error_message }
    else a

/-- The result record of `preparePostData` (the claim-relevant fields of
`PreparedPostData`). -/
structure PreparedPostData where
  success : Bool
  postText : Option String := none
  topic : Option String := none
  errorMessage : Option String := none
deriving DecidableEq, Repr

/-- The generation retry loop of `preparePostData` (post_writer.ts lines
418-451): `replies i` is the raw OpenAI reply of attempt `i` (none = API
error, which also yields a null tweet).  Second component of the result is the
number of attempts made; the loop stops at the first accepted tweet and makes
at most as many attempts as it has fuel. -/
def genLoop (replies : Nat → Option String) (i : Nat) : Nat → Option String × Nat
  | 0 => (none, 0)
  | n + 1 =>
    match (replies i).bind generateNewPostTweet with
    | some t => (some t, 1)
    | none =>
      let rest := genLoop replies (i + 1) n
      (rest.1, rest.2 + 1)

/-- Oracle inputs of one `preparePostData` call: the article-content fetch
result and the raw model replies. -/
structure PrepareEnv where
  articleContent : Option String
  replies : Nat → Option String

/-- `preparePostData()` of `src/post_writer.ts` (lines 370-467), article mode.
Returns the prepared data, the updated `posts_news` table, and the number of
generation attempts made.  The topic returned on success is the
`Generated Topic:` section of the accepted reply; its extraction is not
modelled (no claim concerns it), so the field carries none. -/
def preparePostData (env : PrepareEnv) (articles : Articles) :
    PreparedPostData × Articles × Nat :=
  match fetchPendingArticle articles with
  | none =>
    ({ success := false,
       errorMessage := some "No pending articles found in posts_news table." },
     articles, 0)
  | some pendingArticle =>
    match env.articleContent with
    | none =>
      ({ success := false,
         errorMessage := some "Failed to fetch article content" },
       updateArticleStatus articles pendingArticle.id .failed
         (some "Failed to fetch article content"), 0)
    | some _ =>
      let articles1 := updateArticleStatus articles pendingArticle.id .processed none
      let gen := genLoop env.replies 0 3
      match gen.1 with
      | some t =>
        ({ success := true, postText := some t }, articles1, gen.2)
      | none =>
        ({ success := false,
           errorMessage := some "Failed to generate post content after multiple attempts." },
         updateArticleStatus articles1 pendingArticle.id .failed
           (some "Failed to generate post content after multiple attempts"), gen.2)

/- ### The part_002 orchestrator (`main`, lines 152-479) -/

/-- URL normalisation of the success update (part_002 line 181 =
scheduled_poster.ts line 77): the `POSTED_SUCCESSFULLY` marker is stored as a
fixed placeholder URL. -/
def normalizeUrl (u : String) : String :=
  if u = "POSTED_SUCCESSFULLY" then "https://x.com/posted-successfully" else u

/-- The row update on publish success (part_002 lines 177-185):
status `posted`, URL, publish time, and `error_message: null`. -/
def postedUpdate (now : Int) (url : String) (q : PostRecord) : PostRecord :=
  { q with status := .posted,
           post_url := some (normalizeUrl url),
           posted_at_utc := some now,
           error_message := none }

/-- The row update on publish failure (part_002 lines 194-201):
status `failed_to_post` and an error message. -/
def failedUpdate (now : Int) (msg : String) (q : PostRecord) : PostRecord :=
  { q with status := .failed_to_post,
           error_message := some msg,
           posted_at_utc := some now }

/-- Steps 2-3 of a run (part_002 lines 161-224): find a due ready post and, if
one is found, publish it (`pub` is the `publishTwitterPost` return value) and
record the outcome.  Returns the updated store and `postPublishedInThisRun`. -/
def publishPhase (now : Int) (pub : Option String) (store : Store) : Store × Bool :=
  match findReadyPost now store with
  | none => (store, false)
  | some postToPublish =>
    match pub with
    | some url => (updatePostById store postToPublish.id (postedUpdate now url), true)
    | none =>
      (updatePostById store postToPublish.id
        (failedUpdate now "Publishing failed or URL not retrieved."), false)

/-- Whether any row has status `ready_to_post` (the `existingReadyCheck`
query, part_002 lines 230-235). -/
def anyReady (store : Store) : Bool :=
  store.any fun p => decide (p.status = .ready_to_post)

/-- `needToPreparePosts()` (part_002 lines 227-248):
`postPublishedInThisRun || existingReadyCheck.length === 0`. -/
def needToPreparePosts (postPublishedInThisRun : Bool) (store : Store) : Bool :=
  postPublishedInThisRun || ! anyReady store

/-- The `posted_at_utc` of the most recent successfully posted row (the query
at part_002 lines 260-265: status `posted`, ordered by `posted_at_utc`
descending, limit 1; rows with a null `posted_at_utc` are ignored). -/
def lastPostedAt (store : Store) : Option Int :=
  (store.filterMap fun p => if p.status = .posted then p.posted_at_utc else none).foldr
    (fun t acc => match acc with
      | some a => some (max t a)
      | none => some t) none

/-- Storing a computed `Date` in the `scheduled_time_utc` column keeps integer
milliseconds (`toISOString`); the sub-millisecond part of the jitter
arithmetic is dropped. -/
def msOfRat (q : ℚ) : Int := ⌊q⌋

/-- JavaScript `a || b` on an optional string: the fallback is used when the
value is absent or empty. -/
def jsOrElse (o : Option String) (d : String) : String :=
  match o with
  | some s => if s = "" then d else s
  | none => d

/-- Oracle inputs of one orchestrator run: the clock, the outcomes of the (up
to two) `publishTwitterPost` calls, the outcomes of the (up to two)
`preparePostData` calls, and the jitter draws. -/
structure RunEnv where
  now : Int
  pub1 : Option String := none
  pub2 : Option String := none
  prep1 : PreparedPostData := { success := false }
  prep2 : PreparedPostData := { success := false }
  rnd : ℚ := 0
  rndClamp : ℚ := 0
  rnd2 : ℚ := 0

/-- The schedule anchor of step 5 (part_002 lines 258-278): the publish time
of this run when a post was just published, otherwise the newest `posted`
row's publish time. -/
def scheduledAnchor (env : RunEnv) (published : Bool) (store : Store) : Option ℚ :=
  if published then some (env.now : ℚ) else (lastPostedAt store).map (fun t => (t : ℚ))

/-- The `newPostEntry` record built at part_002 lines 309-315 (before its
status is decided). -/
def newEntry (env : RunEnv) (published : Bool) (store : Store) : PostRecord :=
  { id := freshId store,
    topic := env.prep1.topic,
    posted_text := env.prep1.postText,
    scheduled_time_utc := some (msOfRat (nextScheduledTimeP2 (env.now : ℚ)
      (scheduledAnchor env published store) env.rnd env.rndClamp).1) }

/-- The bootstrap-immediate flow (part_002 lines 324-433): save the entry as
`ready_to_post`, publish it at once, and on success prepare the post after it
(on generation failure of that second preparation nothing is inserted, lines
406-408; on publish failure the entry is marked `failed_to_post`). -/
def immediateFlow (env : RunEnv) (store : Store) (entry : PostRecord) : Store :=
  let store1 := store ++ [{ entry with status := .ready_to_post }]
  match env.pub2 with
  | some url =>
    let store2 := updatePostById store1 entry.id (postedUpdate env.now url)
    let t2 := (env.now : ℚ) + HOURS_BETWEEN_POSTS * 60 * 60 * 1000 + getRandomVariationMs env.rnd2
    if env.prep2.success ∧ env.prep2.postText.isSome then
      store2 ++ [{ id := freshId store2, topic := env.prep2.topic,
                   posted_text := env.prep2.postText, status := .ready_to_post,
                   scheduled_time_utc := some (msOfRat t2) }]
    else store2
  | none =>
    updatePostById store1 entry.id
      (failedUpdate env.now "Immediate publishing failed or URL not retrieved.")

/-- Steps 4-5 of a run (part_002 lines 251-476): prepare the next post and
persist it as `ready_to_post` (or `generation_failed` when the preparation
failed); in the bootstrap-immediate case run `immediateFlow`.  `published` is
`postPublishedInThisRun`. -/
def prepareInsertPhase (env : RunEnv) (published : Bool) (store : Store) : Store :=
  let tp := nextScheduledTimeP2 (env.now : ℚ)
    (scheduledAnchor env published store) env.rnd env.rndClamp
  let newPostEntry := newEntry env published store
  if env.prep1.success ∧ env.prep1.postText.isSome then
    if tp.2 then immediateFlow env store newPostEntry
    else store ++ [{ newPostEntry with status := .ready_to_post }]
  else
    store ++ [{ newPostEntry with
                status := .generation_failed,
                error_message :=
                  some (jsOrElse env.prep1.errorMessage
                    "Unknown error during content generation.") }]

/-- One full orchestrator run (part_002 `main`, lines 152-479): reconcile
orphaned posts, publish a due ready post if there is one, then prepare the
next post when needed. -/
def runMain (env : RunEnv) (store : Store) : Store :=
  let store1 := resetOrphanedPosts env.now store
  let pb := publishPhase env.now env.pub1 store1
  if needToPreparePosts pb.2 pb.1 then prepareInsertPhase env pb.2 pb.1 else pb.1

/-- A sequence of orchestrator runs (each invocation is a fresh process; the
store is the only state carried across runs). -/
def applyRuns (runs : List RunEnv) (store : Store) : Store :=
  runs.foldl (fun st e => runMain e st) store

/-- The best-effort insert performed by the `uncaughtException` /
`unhandledRejection` handlers (part_002 lines 482-536): a `system_error` row
whose `error_message` carries the exception text. -/
def uncaughtExceptionInsert (message : String) (store : Store) : Store :=
  store ++ [{ id := freshId store,
              topic := some "System Error",
              status := .system_error,
              error_message := some ("Uncaught exception: " ++ message) }]

/- ### Invariant-side definitions -/

/-- Number of rows with status `ready_to_post`. -/
def countReady (store : Store) : Nat :=
  store.countP fun p => decide (p.status = .ready_to_post)

/-- Number of `ready_to_post` rows whose posting window has not yet expired at
observation time `t` (the window of a row scheduled at `S` expires at
`S` + grace period). -/
def countReadyUnexpired (t : Int) (store : Store) : Nat :=
  store.countP fun p =>
    decide (p.status = .ready_to_post) && decide (t ≤ schedTimeOf p + SCHEDULE_GRACE_PERIOD_MS)

/-- The claimed `error_message` discipline: statuses that may carry an error
message according to the spec sentence of C9. -/
def claimedErrorStatus (st : PostStatus) : Bool :=
  decide (st = .failed_to_post ∨ st = .generation_failed ∨ st = .missed_schedule)

/-- The amended `error_message` discipline: the repository additionally
writes `system_error` rows with an error message. -/
def errorStatus (st : PostStatus) : Bool :=
  claimedErrorStatus st || decide (st = .system_error)

/-- Per-row error-message invariant (amended form): `error_message` is
non-null iff the status is one that records a failure. -/
def errInv (p : PostRecord) : Prop :=
  p.error_message ≠ none ↔ errorStatus p.status = true

/- ### C5: jitter bound of the anchored schedule computation -/

/-- C5: for every last-published timestamp `T`, the planner's computed next
slot equals `T + 6h + j` for a jitter `j` with `|j| ≤ 30min`, and therefore
lies in `[T + 5h30m, T + 6h30m]`. -/
theorem C5_planner_jitter_bounds (T rnd : ℚ) (h0 : 0 ≤ rnd) (h1 : rnd < 1) :
    (∃ j, nextSlotAnchored T rnd = T + 6 * 60 * 60 * 1000 + j ∧ |j| ≤ 30 * 60 * 1000) ∧
    T + (5 * 60 + 30) * 60 * 1000 ≤ nextSlotAnchored T rnd ∧
    nextSlotAnchored T rnd ≤ T + (6 * 60 + 30) * 60 * 1000 := by
  have hj : |getRandomVariationMs rnd| ≤ 30 * 60 * 1000 := by
    rw [abs_le]
    unfold getRandomVariationMs MAX_TIME_VARIATION_MS
    constructor <;> nlinarith
  have habs := abs_le.mp hj
  refine ⟨⟨getRandomVariationMs rnd, by unfold nextSlotAnchored HOURS_BETWEEN_POSTS; norm_num, hj⟩, ?_, ?_⟩
  · unfold nextSlotAnchored HOURS_BETWEEN_POSTS
    linarith [habs.1]
  · unfold nextSlotAnchored HOURS_BETWEEN_POSTS
    linarith [habs.2]

/-- Witness for C5 at `T = 0`, `rnd = 1/2`. -/
theorem C5_witness :
    ((0:ℚ) ≤ 1/2 ∧ (1/2 : ℚ) < 1) ∧
    ((∃ j, nextSlotAnchored 0 (1/2) = 0 + 6 * 60 * 60 * 1000 + j ∧ |j| ≤ 30 * 60 * 1000) ∧
     (0:ℚ) + (5 * 60 + 30) * 60 * 1000 ≤ nextSlotAnchored 0 (1/2) ∧
     nextSlotAnchored 0 (1/2) ≤ 0 + (6 * 60 + 30) * 60 * 1000) :=
  ⟨⟨by norm_num, by norm_num⟩, C5_planner_jitter_bounds 0 (1/2) (by norm_num) (by norm_num)⟩

/- ### C6: the planner result is never in the past -/

/-- On every branch of the `part_002` schedule computation, `postImmediately`
is only set together with a computed time equal to `now`. -/
theorem scheduleBaseP2_immediate (now : ℚ) (anchor : Option ℚ) (rnd : ℚ) :
    (scheduleBaseP2 now anchor rnd).2 = true → (scheduleBaseP2 now anchor rnd).1 = now := by
  rcases anchor with _ | last
  · simp [scheduleBaseP2, MIN_TIME_BEFORE_FIRST_POST_MS]
  · intro h
    simp [scheduleBaseP2] at h

/-- On every branch of the `scheduled_poster.ts` schedule computation,
`postImmediately` is only set together with a computed time equal to `now`. -/
theorem scheduleBaseSP_immediate (now : ℚ) (anchor : Option ℚ) (processed : Bool) (rnd : ℚ) :
    (scheduleBaseSP now anchor processed rnd).2 = true →
      (scheduleBaseSP now anchor processed rnd).1 = now := by
  rcases anchor with _ | last
  · cases processed <;>
      simp [scheduleBaseSP, MIN_TIME_BEFORE_FIRST_POST_MS]
  · intro h
    simp [scheduleBaseSP] at h

/-- The past-time clamp never returns a time before `now`, provided the extra
delay is nonnegative and an immediate slot is already at `now`. -/
theorem clampPast_ge (now extra : ℚ) (tp : ℚ × Bool) (hextra : 0 ≤ extra)
    (himm : tp.2 = true → tp.1 = now) :
    now ≤ (clampPast now extra tp).1 := by
  unfold clampPast
  by_cases hc : (¬ tp.2 = true ∧ tp.1 < now : Prop)
  · rw [if_pos hc]
    simpa using by linarith
  · rw [if_neg hc]
    push_neg at hc
    by_cases hb : tp.2 = true
    · exact le_of_eq (himm hb).symm
    · have hb' : tp.2 = false := by simpa using hb
      exact hc (by simp [hb'])

/-- C6 counterexample: at `now = 0` with anchor `T = -7h` and jitter draws
`1/2` (zero jitter), the anchored arithmetic yields a past time (`-1h`), and
the `part_002` clamp returns exactly `now` — it adds no small positive delay
(the claimed form `now + smallDelay + |jitter|` with a positive delay would be
strictly after `now`). -/
theorem C6_counterexample :
    nextSlotAnchored (-25200000) (1/2) < 0 ∧
    (nextScheduledTimeP2 0 (some (-25200000)) (1/2) (1/2)).1 = 0 := by
  constructor
  · unfold nextSlotAnchored getRandomVariationMs HOURS_BETWEEN_POSTS MAX_TIME_VARIATION_MS
    norm_num
  · unfold nextScheduledTimeP2 clampPast scheduleBaseP2 nextSlotAnchored getRandomVariationMs
      HOURS_BETWEEN_POSTS MAX_TIME_VARIATION_MS
    norm_num

/-- C6 (amended): for every input, both planner variants return a timestamp
that is not in the past relative to the time of computation.  (When the
anchored arithmetic yields a past time, `scheduled_poster.ts` clamps to
`now + 1min + |jitter|`; `part_002` clamps to `now + |jitter|` with no extra
delay — see `C6_counterexample`.) -/
theorem C6_planner_never_past (now rnd rndClamp : ℚ) (anchor : Option ℚ) (processed : Bool) :
    now ≤ (nextScheduledTimeP2 now anchor rnd rndClamp).1 ∧
    now ≤ (nextScheduledTimeSP now anchor processed rnd rndClamp).1 := by
  have habs : (0:ℚ) ≤ |getRandomVariationMs rndClamp| := abs_nonneg _
  constructor
  · exact clampPast_ge now _ _ habs (scheduleBaseP2_immediate now anchor rnd)
  · exact clampPast_ge now _ _ (by linarith) (scheduleBaseSP_immediate now anchor processed rnd)

/- ### Helper lemmas about findReadyPost and the reconciler -/

/-- Anything `findReadyPost` returns is a `ready_to_post` row of the store
whose scheduled time is inside the posting window. -/
theorem findReadyPost_spec (now : Int) (st : Store) (q : PostRecord)
    (h : findReadyPost now st = some q) :
    q ∈ st ∧ q.status = .ready_to_post ∧ isTimeToPost now (schedTimeOf q) = true := by
  unfold findReadyPost at h
  have hq1 := List.find?_some h
  have hq2 := List.mem_of_find?_eq_some h
  have hq3 : q ∈ sortBy schedLE (st.filter fun p => decide (p.status = .ready_to_post)) :=
    List.mem_of_mem_take hq2
  rw [mem_sortBy, List.mem_filter] at hq3
  exact ⟨hq3.1, by simpa using hq3.2, hq1⟩

/-- A row the reconciler filter does not select passes through unchanged. -/
theorem mem_resetOrphanedPosts_of_not_orphaned (now : Int) (store : Store) (r : PostRecord)
    (hr : r ∈ store) (hno : isOrphaned now r = false) :
    r ∈ resetOrphanedPosts now store := by
  unfold resetOrphanedPosts
  exact List.mem_map.mpr ⟨r, hr, by simp [hno]⟩

/-- The reconciler's selection condition holds of a `ready_to_post` row whose
scheduled time is strictly older than the cutoff. -/
theorem isOrphaned_of_old (now s : Int) (p : PostRecord)
    (hready : p.status = .ready_to_post) (hs : p.scheduled_time_utc = some s)
    (hold : s < now - ORPHAN_CUTOFF_MS) :
    isOrphaned now p = true := by
  unfold isOrphaned
  rw [hs, hready]
  simp [hold]

/- ### C4: the missed-schedule reconciler -/

/-- A `ready_to_post` row scheduled exactly 3 hours ago (the claim's boundary
case). -/
def c4Record : PostRecord :=
  { id := 1, posted_text := some "boundary case post",
    status := .ready_to_post, scheduled_time_utc := some (-10800000) }

/-- C4 counterexample: at `now = 0`, a `ready_to_post` record with
`scheduled_time = now - 3h` exactly is NOT transitioned by
`resetOrphanedPosts` (the filter is a strict `lt` against the cutoff), whereas
the claim says such a record is transitioned to `missed_schedule`. -/
theorem C4_counterexample :
    c4Record.status = PostStatus.ready_to_post ∧
    c4Record.scheduled_time_utc = some (0 - ORPHAN_CUTOFF_MS) ∧
    isOrphaned 0 c4Record = false ∧
    resetOrphanedPosts 0 [c4Record] = [c4Record] := by
  refine ⟨rfl, by decide, by decide, ?_⟩
  unfold resetOrphanedPosts
  rw [List.map_cons, List.map_nil, if_neg (by decide)]

/-- C4 (amended): the reconciler transitions every `ready_to_post` record
whose `scheduled_time` is STRICTLY older than `now - 3h` to `missed_schedule`
with a non-null error message, leaves every unselected record unchanged, and
the transitioned record can no longer be selected by the publish-check (a
record at exactly `now - 3h` is not transitioned, see `C4_counterexample`,
but is outside the posting window anyway). -/
theorem C4_reconciler_sweep (now s : Int) (store : Store) (p : PostRecord)
    (hmem : p ∈ store) (hready : p.status = .ready_to_post)
    (hs : p.scheduled_time_utc = some s) (hold : s < now - ORPHAN_CUTOFF_MS) :
    (∃ q ∈ resetOrphanedPosts now store,
      q.id = p.id ∧ q.status = .missed_schedule ∧ q.error_message ≠ none) ∧
    (∀ r ∈ store, isOrphaned now r = false → r ∈ resetOrphanedPosts now store) ∧
    p ∉ resetOrphanedPosts now store ∧
    findReadyPost now (resetOrphanedPosts now store) ≠ some p := by
  have horph : isOrphaned now p = true := isOrphaned_of_old now s p hready hs hold
  have hnotmem : p ∉ resetOrphanedPosts now store := by
    unfold resetOrphanedPosts
    intro hmem'
    obtain ⟨q, hq, hqe⟩ := List.mem_map.mp hmem'
    by_cases hq2 : isOrphaned now q = true
    · rw [if_pos hq2] at hqe
      have : p.status = .missed_schedule := by rw [← hqe]; rfl
      rw [hready] at this
      exact absurd this (by decide)
    · rw [if_neg hq2] at hqe
      rw [hqe] at hq2
      exact hq2 horph
  refine ⟨⟨orphanUpdate p, ?_, rfl, rfl, by simp [orphanUpdate]⟩,
    fun r hr hno => mem_resetOrphanedPosts_of_not_orphaned now store r hr hno, hnotmem, ?_⟩
  · unfold resetOrphanedPosts
    exact List.mem_map.mpr ⟨p, hmem, by simp [horph]⟩
  · intro hfind
    exact hnotmem (findReadyPost_spec now _ p hfind).1

/-- Witness for C4 at `now = 0` with a record scheduled 3h1ms ago. -/
def c4WitnessRecord : PostRecord :=
  { id := 2, posted_text := some "stale post",
    status := .ready_to_post, scheduled_time_utc := some (-10800001) }

/-- Witness for `C4_reconciler_sweep` at a concrete store. -/
theorem C4_witness :
    (c4WitnessRecord ∈ [c4WitnessRecord] ∧ c4WitnessRecord.status = .ready_to_post ∧
      c4WitnessRecord.scheduled_time_utc = some (-10800001) ∧
      (-10800001 : Int) < 0 - ORPHAN_CUTOFF_MS) ∧
    ((∃ q ∈ resetOrphanedPosts 0 [c4WitnessRecord],
        q.id = c4WitnessRecord.id ∧ q.status = .missed_schedule ∧ q.error_message ≠ none) ∧
     (∀ r ∈ [c4WitnessRecord], isOrphaned 0 r = false → r ∈ resetOrphanedPosts 0 [c4WitnessRecord]) ∧
     c4WitnessRecord ∉ resetOrphanedPosts 0 [c4WitnessRecord] ∧
     findReadyPost 0 (resetOrphanedPosts 0 [c4WitnessRecord]) ≠ some c4WitnessRecord) :=
  ⟨⟨by decide, rfl, rfl, by decide⟩,
    C4_reconciler_sweep 0 (-10800001) [c4WitnessRecord] c4WitnessRecord
      (by decide) rfl rfl (by decide)⟩

/- ### Further list helpers for stores with a unique ready row -/

theorem head?_eq_some_of_all_eq {l : List α} {a : α}
    (hne : a ∈ l) (hall : ∀ x ∈ l, x = a) : l.head? = some a := by
  cases l with
  | nil => simp at hne
  | cons b bs => simp [hall b (by simp)]

theorem find?_eq_some_of_all_eq {pr : α → Bool} {l : List α} {a : α}
    (hne : a ∈ l) (hall : ∀ x ∈ l, x = a) (hp : pr a = true) : l.find? pr = some a := by
  cases l with
  | nil => simp at hne
  | cons b bs =>
    have hb : b = a := hall b (by simp)
    subst hb
    simp [List.find?_cons, hp]

theorem mem_take_of_all_eq {l : List α} {a : α}
    (hne : a ∈ l) (hall : ∀ x ∈ l, x = a) {n : Nat} (hn : 0 < n) : a ∈ l.take n := by
  cases l with
  | nil => simp at hne
  | cons b bs =>
    have hb : b = a := hall b (by simp)
    subst hb
    cases n with
    | zero => omega
    | succ m => simp [List.take]

/-- The posting-window test, unfolded to the interval of the claim. -/
theorem isTimeToPost_iff (now S : Int) :
    isTimeToPost now S = true ↔
      S - SCHEDULE_BUFFER_MS ≤ now ∧ now ≤ S + SCHEDULE_GRACE_PERIOD_MS := by
  unfold isTimeToPost
  simp

/-- In a store whose only `ready_to_post` row is `p`, every row of the
filtered ready list equals `p`. -/
theorem filter_ready_all_eq (store : Store) (p : PostRecord)
    (huniq : ∀ q ∈ store, q.status = .ready_to_post → q = p) :
    ∀ x ∈ store.filter (fun r => decide (r.status = .ready_to_post)), x = p := by
  intro x hx
  rw [List.mem_filter] at hx
  exact huniq x hx.1 (by simpa using hx.2)

/-- Same, after the reconciler has run (reconciled rows are no longer ready,
unreconciled ready rows come from the original store). -/
theorem filter_ready_reset_all_eq (now : Int) (store : Store) (p : PostRecord)
    (huniq : ∀ q ∈ store, q.status = .ready_to_post → q = p) :
    ∀ x ∈ (resetOrphanedPosts now store).filter
        (fun r => decide (r.status = .ready_to_post)), x = p := by
  intro x hx
  rw [List.mem_filter] at hx
  obtain ⟨hx1, hx2⟩ := hx
  have hx2' : x.status = .ready_to_post := by simpa using hx2
  unfold resetOrphanedPosts at hx1
  obtain ⟨q, hq, hqe⟩ := List.mem_map.mp hx1
  by_cases ho : isOrphaned now q = true
  · rw [if_pos ho] at hqe
    have : x.status = .missed_schedule := by rw [← hqe]; rfl
    rw [hx2'] at this
    exact absurd this (by decide)
  · rw [if_neg ho] at hqe
    subst hqe
    exact huniq q hq hx2'

/- ### C3: the publish decision versus the posting window -/

/-- A `ready_to_post` row scheduled at time 0, for the C3 counterexample. -/
def c3Record : PostRecord :=
  { id := 1, posted_text := some "window case post",
    status := .ready_to_post, scheduled_time_utc := some 0 }

/-- C3 counterexample: the `scheduled_poster.ts` orchestrator variant decides
publication by `scheduledTime <= now` alone (line 67), not by the claimed
window `[S - 30min, S + 2h]`: at `now = S + 3h` it publishes the row although
the window has expired, and at `now = S - 10min` (inside the claimed early
buffer) it does not publish. -/
theorem C3_counterexample :
    spDuePost 10800000 [c3Record] = some c3Record ∧
    isTimeToPost 10800000 (schedTimeOf c3Record) = false ∧
    spDuePost (-600000) [c3Record] = none ∧
    isTimeToPost (-600000) (schedTimeOf c3Record) = true := by
  refine ⟨?_, by decide, ?_, by decide⟩ <;> decide

/-- C3 (amended): in the `part_002` orchestrator (reconciler followed by
`findReadyPost`), a store's unique `ready_to_post` record `p` with scheduled
time `S` is selected for publication iff `now` lies in the posting window
`[S - 30min, S + 2h]`; the `scheduled_poster.ts` variant instead selects it
iff `S ≤ now` (no early buffer, no late bound). -/
theorem C3_window_iff (now S : Int) (store : Store) (p : PostRecord)
    (hmem : p ∈ store) (hready : p.status = .ready_to_post)
    (hS : p.scheduled_time_utc = some S)
    (huniq : ∀ q ∈ store, q.status = .ready_to_post → q = p) :
    (findReadyPost now (resetOrphanedPosts now store) = some p ↔
      S - SCHEDULE_BUFFER_MS ≤ now ∧ now ≤ S + SCHEDULE_GRACE_PERIOD_MS) ∧
    (spDuePost now store = some p ↔ S ≤ now) := by
  have hsched : schedTimeOf p = S := by unfold schedTimeOf; rw [hS]; rfl
  constructor
  · constructor
    · intro h
      have := (findReadyPost_spec now _ p h).2.2
      rw [hsched] at this
      exact (isTimeToPost_iff now S).mp this
    · intro hwin
      have hnotorph : isOrphaned now p = false := by
        unfold isOrphaned
        rw [hS, hready]
        have hcut : ORPHAN_CUTOFF_MS = 10800000 := by norm_num [ORPHAN_CUTOFF_MS]
        have hgrace : SCHEDULE_GRACE_PERIOD_MS = 7200000 := by
          norm_num [SCHEDULE_GRACE_PERIOD_MS]
        rw [hgrace] at hwin
        simp only [decide_eq_true_eq]
        rw [hcut]
        simp only [Bool.and_eq_false_iff]
        right
        simp only [decide_eq_false_iff_not, not_lt]
        omega
      have hpresent : p ∈ (resetOrphanedPosts now store).filter
          (fun r => decide (r.status = .ready_to_post)) := by
        rw [List.mem_filter]
        exact ⟨mem_resetOrphanedPosts_of_not_orphaned now store p hmem hnotorph,
          by simp [hready]⟩
      have hall := filter_ready_reset_all_eq now store p huniq
      have hallSorted : ∀ x ∈ sortBy schedLE ((resetOrphanedPosts now store).filter
          (fun r => decide (r.status = .ready_to_post))), x = p := by
        intro x hx
        exact hall x ((mem_sortBy schedLE x _).mp hx)
      have hmemSorted : p ∈ sortBy schedLE ((resetOrphanedPosts now store).filter
          (fun r => decide (r.status = .ready_to_post))) :=
        (mem_sortBy schedLE p _).mpr hpresent
      have hmemTake := mem_take_of_all_eq hmemSorted hallSorted (n := 5) (by omega)
      have hallTake : ∀ x ∈ (sortBy schedLE ((resetOrphanedPosts now store).filter
          (fun r => decide (r.status = .ready_to_post)))).take 5, x = p := by
        intro x hx
        exact hallSorted x (List.mem_of_mem_take hx)
      unfold findReadyPost
      exact find?_eq_some_of_all_eq hmemTake hallTake
        (by rw [hsched]; exact (isTimeToPost_iff now S).mpr hwin)
  · constructor
    · intro h
      unfold spDuePost at h
      cases hfq : findReadyPostSP store with
      | none => rw [hfq] at h; exact absurd h (by simp)
      | some q =>
        rw [hfq] at h
        dsimp only at h
        by_cases hle : schedTimeOf q ≤ now
        · rw [if_pos hle] at h
          have : q = p := by injection h
          rw [this, hsched] at hle
          exact hle
        · rw [if_neg hle] at h
          exact absurd h (by simp)
    · intro hle
      have hfsp : findReadyPostSP store = some p := by
        unfold findReadyPostSP
        have hpresent : p ∈ store.filter (fun r => decide (r.status = .ready_to_post)) := by
          rw [List.mem_filter]
          exact ⟨hmem, by simp [hready]⟩
        have hall := filter_ready_all_eq store p huniq
        exact head?_eq_some_of_all_eq ((mem_sortBy schedLE p _).mpr hpresent)
          (fun x hx => hall x ((mem_sortBy schedLE x _).mp hx))
      unfold spDuePost
      rw [hfsp]
      dsimp only
      rw [if_pos (by rw [hsched]; exact hle)]

/-- Witness for `C3_window_iff` on a one-row store. -/
theorem C3_witness :
    (c3Record ∈ [c3Record] ∧ c3Record.status = .ready_to_post ∧
      c3Record.scheduled_time_utc = some 0 ∧
      (∀ q ∈ [c3Record], q.status = .ready_to_post → q = c3Record)) ∧
    ((findReadyPost 3600000 (resetOrphanedPosts 3600000 [c3Record]) = some c3Record ↔
        0 - SCHEDULE_BUFFER_MS ≤ 3600000 ∧ 3600000 ≤ 0 + SCHEDULE_GRACE_PERIOD_MS) ∧
     (spDuePost 3600000 [c3Record] = some c3Record ↔ (0:Int) ≤ 3600000)) :=
  ⟨⟨by decide, rfl, rfl, by decide⟩,
    C3_window_iff 3600000 0 [c3Record] c3Record (by decide) rfl rfl (by decide)⟩

/- ### C1: session-check failure -/

/-- Attempts oracle whose every posting attempt would succeed with no
recoverable permalink. -/
def c1Attempts : Nat → AttemptResult := fun _ => .success none

/-- An in-window `ready_to_post` record. -/
def c1Ready : PostRecord :=
  { id := 1, posted_text := some "scheduled post body",
    status := .ready_to_post, scheduled_time_utc := some 0 }

/-- A one-row store holding `c1Ready`. -/
def c1Store : Store := [c1Ready]

/-- C1 counterexample: when the session-validity check fails,
`publishTwitterPost` returns null having made no posting attempt — but (a)
its return value is identical to that of a publish whose every attempt failed
transiently, so the authentication-expired condition is NOT surfaced
distinctly to the orchestrator, and (b) the orchestrator then transitions the
ready record to `failed_to_post`, not leaving it `ready_to_post` as claimed. -/
theorem C1_counterexample :
    publishTwitterPost false c1Attempts = (none, 0) ∧
    (publishTwitterPost false c1Attempts).1 = (publishTwitterPost true (fun _ => .failure)).1 ∧
    ((publishPhase 0 (publishTwitterPost false c1Attempts).1 c1Store).1.map
      fun p => (p.id, p.status)) = [(1, PostStatus.failed_to_post)] := by
  refine ⟨rfl, rfl, ?_⟩
  decide

/-- C1 (amended): if the session-validity check fails, `publishTwitterPost`
returns null without making any posting attempt; the orchestrator, receiving
the same null it receives on a transient publish failure, transitions the due
`ready_to_post` record to `failed_to_post` with the generic publish-failure
message (the authentication-expired condition is surfaced only in the logs,
not in the store or the return value). -/
theorem C1_auth_fail_fast (attempts : Nat → AttemptResult) (now : Int) (store : Store)
    (p : PostRecord) (hfind : findReadyPost now store = some p) :
    publishTwitterPost false attempts = (none, 0) ∧
    ∃ q ∈ (publishPhase now (publishTwitterPost false attempts).1 store).1,
      q.id = p.id ∧ q.status = .failed_to_post ∧
      q.error_message = some "Publishing failed or URL not retrieved." := by
  refine ⟨rfl, ?_⟩
  have hp := findReadyPost_spec now store p hfind
  refine ⟨failedUpdate now "Publishing failed or URL not retrieved." p, ?_, rfl, rfl, rfl⟩
  unfold publishPhase
  rw [hfind]
  dsimp only
  unfold updatePostById
  exact List.mem_map.mpr ⟨p, hp.1, by simp⟩

/-- Witness for `C1_auth_fail_fast` on the concrete one-row store. -/
theorem C1_witness :
    findReadyPost 0 c1Store = some c1Ready ∧
    (publishTwitterPost false c1Attempts = (none, 0) ∧
     ∃ q ∈ (publishPhase 0 (publishTwitterPost false c1Attempts).1 c1Store).1,
       q.id = c1Ready.id ∧ q.status = .failed_to_post ∧
       q.error_message = some "Publishing failed or URL not retrieved.") :=
  ⟨by decide, C1_auth_fail_fast c1Attempts 0 c1Store c1Ready (by decide)⟩

/- ### C8: confirmed outcome despite failed permalink recovery -/

/-- C8 counterexample: in the legacy `part_001` variant a first-attempt submit
that succeeds but whose permalink recovery fails returns null (one attempt
made) — the outcome IS downgraded to failure; the current
`src/post_writer.ts` variant on the same input returns the
`POSTED_SUCCESSFULLY` marker. -/
theorem C8_counterexample :
    publishTwitterPostLegacy (fun _ => .success none) = (none, 1) ∧
    (publishTwitterPost true (fun _ => .success none)).1 = some "POSTED_SUCCESSFULLY" := by
  exact ⟨rfl, rfl⟩

/-- C8 (amended): in `src/post_writer.ts`, whenever an attempt's submit action
succeeds (after up to two failed attempts), `publishTwitterPost` returns a
non-null outcome — the `POSTED_SUCCESSFULLY` marker when permalink recovery
failed, the recovered URL otherwise; in the superseded `part_001` variant a
failed permalink recovery leaves the result null (see `C8_counterexample`). -/
theorem C8_confirmed_without_receipt (attempts : Nat → AttemptResult) (i : Nat)
    (r : Option String) (hi : i ≤ 2) (hfail : ∀ j, j < i → attempts j = .failure)
    (hsucc : attempts i = .success r) :
    (publishTwitterPost true attempts).1 = some (urlOfAttempt r) ∧
    (publishTwitterPost true attempts).1 ≠ none := by
  have hmain : (publishTwitterPost true attempts).1 = some (urlOfAttempt r) := by
    interval_cases i
    · simp [publishTwitterPost, postingLoop, hsucc]
    · have h0 := hfail 0 (by omega)
      simp [publishTwitterPost, postingLoop, h0, hsucc]
    · have h0 := hfail 0 (by omega)
      have h1 := hfail 1 (by omega)
      simp [publishTwitterPost, postingLoop, h0, h1, hsucc]
  exact ⟨hmain, by rw [hmain]; simp⟩

/-- Witness for `C8_confirmed_without_receipt`: submit succeeds on the first
attempt but the permalink recovery fails. -/
theorem C8_witness :
    ((0:Nat) ≤ 2 ∧ c1Attempts 0 = .success none) ∧
    ((publishTwitterPost true c1Attempts).1 = some (urlOfAttempt none) ∧
     (publishTwitterPost true c1Attempts).1 ≠ none) :=
  ⟨⟨by omega, rfl⟩,
    C8_confirmed_without_receipt c1Attempts 0 none (by omega)
      (fun j hj => absurd hj (by omega)) rfl⟩

/- ### Helper lemmas for the article preparation -/

/-- Whatever `fetchPendingArticle` returns is a pending row of the table. -/
theorem fetchPendingArticle_spec (articles : Articles) (art : ArticleRecord)
    (h : fetchPendingArticle articles = some art) :
    art ∈ articles ∧ art.status = .pending := by
  unfold fetchPendingArticle at h
  obtain ⟨ys, hys⟩ := List.head?_eq_some_iff.mp h
  have hmem : art ∈ sortBy articleTimestampLE
      (articles.filter fun a => decide (a.status = .pending)) := by
    rw [hys]; simp
  rw [mem_sortBy, List.mem_filter] at hmem
  exact ⟨hmem.1, by simpa using hmem.2⟩

/-- The generation loop makes at most as many attempts as it has fuel. -/
theorem genLoop_attempts_le (replies : Nat → Option String) (i fuel : Nat) :
    (genLoop replies i fuel).2 ≤ fuel := by
  induction fuel generalizing i with
  | zero => simp [genLoop]
  | succ n ih =>
    unfold genLoop
    cases h : (replies i).bind generateNewPostTweet with
    | some t => simp
    | none =>
      simp only []
      have := ih (i + 1)
      omega

/-- If every attempt within the fuel is rejected, the generation loop yields
no tweet. -/
theorem genLoop_none_of_all_rejected (replies : Nat → Option String) (i fuel : Nat)
    (h : ∀ j, j < fuel → (replies (i + j)).bind generateNewPostTweet = none) :
    (genLoop replies i fuel).1 = none := by
  induction fuel generalizing i with
  | zero => simp [genLoop]
  | succ n ih =>
    unfold genLoop
    have h0 : (replies i).bind generateNewPostTweet = none := by
      have := h 0 (by omega)
      simpa using this
    rw [h0]
    simp only []
    exact ih (i + 1) fun j hj => by
      have := h (j + 1) (by omega)
      simpa [Nat.add_assoc, Nat.add_comm 1 j] using this

/- ### C7: validation of the extracted tweet, bounded retries,
     generation_failed on exhaustion -/

/-- C7: for every model reply whose `Tweet:` section is extractable as body
`t`, the generator rejects (returns no tweet) iff `t` is shorter than 10
characters, contains a question mark, or contains the token "error"
(case-insensitively); every `preparePostData` call makes at most 3 generation
attempts; and when the article is fetched but every attempt within the 3 is
rejected, the call fails with the generation-failure message (which the
orchestrator records as a `generation_failed` row — see
`prepareInsertPhase`). -/
theorem C7_generator_validation :
    (∀ raw t, extractTweetRaw raw = some t →
      (generateNewPostTweet raw = none ↔
        (t.length < 10 ∨ containsSub t "?" = true ∨
          containsSub (lowerStr t) "error" = true))) ∧
    (∀ env articles, (preparePostData env articles).2.2 ≤ 3) ∧
    (∀ env articles art, fetchPendingArticle articles = some art →
      env.articleContent.isSome = true →
      (∀ j, j < 3 → (env.replies j).bind generateNewPostTweet = none) →
      (preparePostData env articles).1.success = false ∧
      (preparePostData env articles).1.errorMessage =
        some "Failed to generate post content after multiple attempts." ∧
      (∀ renv : RunEnv, ∀ published store,
        renv.prep1 = (preparePostData env articles).1 →
        ∃ q ∈ prepareInsertPhase renv published store,
          q.status = .generation_failed ∧ q.error_message ≠ none)) := by
  refine ⟨?_, ?_, ?_⟩
  · intro raw t hext
    have hgen : generateNewPostTweet raw = if tweetRejected t = true then none else some t := by
      unfold generateNewPostTweet
      rw [hext]
    rw [hgen]
    constructor
    · intro h
      by_cases hr : tweetRejected t = true
      · unfold tweetRejected at hr
        simp only [Bool.or_eq_true, decide_eq_true_eq] at hr
        tauto
      · rw [if_neg hr] at h
        exact absurd h (by simp)
    · intro h
      have hr : tweetRejected t = true := by
        unfold tweetRejected
        simp only [Bool.or_eq_true, decide_eq_true_eq]
        tauto
      rw [if_pos hr]
  · intro env articles
    unfold preparePostData
    cases hf : fetchPendingArticle articles with
    | none => simp
    | some art =>
      cases hc : env.articleContent with
      | none => simp
      | some c =>
        have h3 := genLoop_attempts_le env.replies 0 3
        dsimp only
        split <;> (dsimp only; omega)
  · intro env articles art hf hc hrej
    obtain ⟨c, hcc⟩ := Option.isSome_iff_exists.mp hc
    have hnone : (genLoop env.replies 0 3).1 = none :=
      genLoop_none_of_all_rejected env.replies 0 3 fun j hj => by
        have := hrej j hj
        simpa using this
    have hresult : (preparePostData env articles).1 =
        { success := false,
          errorMessage := some "Failed to generate post content after multiple attempts." } := by
      unfold preparePostData
      rw [hf, hcc]
      dsimp only
      rw [hnone]
    refine ⟨by rw [hresult], by rw [hresult], ?_⟩
    intro renv published store hprep
    rw [hresult] at hprep
    unfold prepareInsertPhase
    rw [hprep]
    dsimp only
    rw [if_neg (by simp)]
    refine ⟨_, List.mem_append_right _ (List.mem_singleton.mpr rfl), rfl, by simp⟩

/-- Concrete model reply containing a question in its tweet section. -/
def c7Raw : String :=
  "Persona Alignment Check: aligned.\nGenerated Topic: AI agents\nTweet: Is this the future of AI agents?"

/-- The body extracted from `c7Raw`. -/
def c7Body : String := "Is this the future of AI agents?"

/-- Concrete preparation environment whose every model reply is `c7Raw`. -/
def c7Env : PrepareEnv :=
  { articleContent := some "<html>article text</html>", replies := fun _ => some c7Raw }

/-- Concrete pending article row. -/
def c7Article : ArticleRecord :=
  { id := 7, article := "https://news.example/post", timestamp := 5, status := .pending }

/-- Witness for `C7_generator_validation`: a reply whose tweet contains "?" is
rejected; with every reply equal to it, preparation fails after at most 3
attempts. -/
theorem C7_witness :
    (extractTweetRaw c7Raw = some c7Body ∧
     (generateNewPostTweet c7Raw = none ↔
       (c7Body.length < 10 ∨ containsSub c7Body "?" = true ∨
         containsSub (lowerStr c7Body) "error" = true))) ∧
    (preparePostData c7Env [c7Article]).2.2 ≤ 3 ∧
    (fetchPendingArticle [c7Article] = some c7Article ∧
     (preparePostData c7Env [c7Article]).1.success = false ∧
     (preparePostData c7Env [c7Article]).1.errorMessage =
       some "Failed to generate post content after multiple attempts.") := by
  have hext : extractTweetRaw c7Raw = some c7Body := by decide
  have hrej : ∀ j, j < 3 → (c7Env.replies j).bind generateNewPostTweet = none :=
    fun j _ => (by decide : (some c7Raw).bind generateNewPostTweet = none)
  have h3 := C7_generator_validation.2.2 c7Env [c7Article] c7Article
    (by decide) (by decide) hrej
  exact ⟨⟨hext, C7_generator_validation.1 c7Raw c7Body hext⟩,
    C7_generator_validation.2.1 c7Env [c7Article], ⟨by decide, h3.1, h3.2.1⟩⟩

/- ### C10: a fetched article never remains pending -/

/-- The row a status update selects is present in the result with the new
status (and the new error message when one is given). -/
theorem updateArticleStatus_mem (articles : Articles) (a : ArticleRecord)
    (ha : a ∈ articles) (aid : Nat) (st : ArticleStatus) (err : Option String)
    (hid : a.id = aid) :
    ∃ b ∈ updateArticleStatus articles aid st err,
      b.id = a.id ∧ b.status = st ∧ (err ≠ none → b.error_message = err) := by
  unfold updateArticleStatus
  refine ⟨_, List.mem_map.mpr ⟨a, ha, rfl⟩, ?_⟩
  rw [if_pos hid]
  refine ⟨rfl, rfl, ?_⟩
  cases err with
  | none => intro h; exact absurd rfl h
  | some m => intro; rfl

/-- After a status update, every row carrying the updated id has the new
status. -/
theorem updateArticleStatus_id_status (articles : Articles) (aid : Nat)
    (st : ArticleStatus) (err : Option String) :
    ∀ b ∈ updateArticleStatus articles aid st err, b.id = aid → b.status = st := by
  intro b hb hid
  unfold updateArticleStatus at hb
  obtain ⟨q, hq, hqe⟩ := List.mem_map.mp hb
  by_cases hqid : q.id = aid
  · rw [if_pos hqid] at hqe
    rw [← hqe]
  · rw [if_neg hqid] at hqe
    rw [hqe] at hqid
    exact absurd hid hqid

/-- C10: in article mode, once the selected pending article's content is
fetched successfully, `preparePostData` marks it `processed` before the
generation attempts; when generation succeeds it stays `processed`, when all
attempts are rejected it is marked `failed` with an error message — in every
case no row with the article's id remains `pending` after the call. -/
theorem C10_article_not_pending (env : PrepareEnv) (articles : Articles)
    (art : ArticleRecord) (hf : fetchPendingArticle articles = some art)
    (hc : env.articleContent.isSome = true) :
    (∀ a ∈ (preparePostData env articles).2.1, a.id = art.id → a.status ≠ .pending) ∧
    ((preparePostData env articles).1.success = true →
      ∃ a ∈ (preparePostData env articles).2.1, a.id = art.id ∧ a.status = .processed) ∧
    ((preparePostData env articles).1.success = false →
      ∃ a ∈ (preparePostData env articles).2.1,
        a.id = art.id ∧ a.status = .failed ∧ a.error_message ≠ none) := by
  obtain ⟨c, hcc⟩ := Option.isSome_iff_exists.mp hc
  have hart := fetchPendingArticle_spec articles art hf
  cases hg : (genLoop env.replies 0 3).1 with
  | some t =>
    have hps : preparePostData env articles =
        ({ success := true, postText := some t },
         updateArticleStatus articles art.id .processed none,
         (genLoop env.replies 0 3).2) := by
      unfold preparePostData
      rw [hf, hcc]
      dsimp only
      rw [hg]
    rw [hps]
    refine ⟨?_, ?_, ?_⟩
    · intro a ha hid
      have := updateArticleStatus_id_status articles art.id .processed none a ha hid
      rw [this]
      decide
    · intro
      obtain ⟨b, hb, hb1, hb2, _⟩ :=
        updateArticleStatus_mem articles art hart.1 art.id .processed none rfl
      exact ⟨b, hb, hb1, hb2⟩
    · intro hfalse
      exact absurd hfalse (by simp)
  | none =>
    have hps : preparePostData env articles =
        ({ success := false,
           errorMessage := some "Failed to generate post content after multiple attempts." },
         updateArticleStatus (updateArticleStatus articles art.id .processed none) art.id
           .failed (some "Failed to generate post content after multiple attempts"),
         (genLoop env.replies 0 3).2) := by
      unfold preparePostData
      rw [hf, hcc]
      dsimp only
      rw [hg]
    rw [hps]
    obtain ⟨b, hb, hb1, hb2, _⟩ :=
      updateArticleStatus_mem articles art hart.1 art.id .processed none rfl
    obtain ⟨d, hd, hd1, hd2, hd3⟩ :=
      updateArticleStatus_mem (updateArticleStatus articles art.id .processed none) b hb
        art.id .failed (some "Failed to generate post content after multiple attempts") hb1
    refine ⟨?_, ?_, ?_⟩
    · intro a ha hid
      have := updateArticleStatus_id_status
        (updateArticleStatus articles art.id .processed none) art.id .failed
        (some "Failed to generate post content after multiple attempts") a ha hid
      rw [this]
      decide
    · intro htrue
      exact absurd htrue (by simp)
    · intro
      refine ⟨d, hd, by rw [hd1, hb1], hd2, ?_⟩
      rw [hd3 (by simp)]
      simp

/-- Witness for `C10_article_not_pending` on a concrete one-row table. -/
theorem C10_witness :
    (fetchPendingArticle [c7Article] = some c7Article ∧
      (c7Env.articleContent.isSome = true)) ∧
    ((∀ a ∈ (preparePostData c7Env [c7Article]).2.1, a.id = c7Article.id → a.status ≠ .pending) ∧
     ((preparePostData c7Env [c7Article]).1.success = true →
       ∃ a ∈ (preparePostData c7Env [c7Article]).2.1,
         a.id = c7Article.id ∧ a.status = .processed) ∧
     ((preparePostData c7Env [c7Article]).1.success = false →
       ∃ a ∈ (preparePostData c7Env [c7Article]).2.1,
         a.id = c7Article.id ∧ a.status = .failed ∧ a.error_message ≠ none)) :=
  ⟨⟨by decide, by decide⟩,
    C10_article_not_pending c7Env [c7Article] c7Article (by decide) (by decide)⟩

/- ### Counting lemmas for the at-most-one-ready invariant -/

theorem countP_map_le (pred : α → Bool) (g : α → α) (l : List α)
    (h : ∀ x, pred (g x) = true → pred x = true) :
    List.countP pred (l.map g) ≤ List.countP pred l := by
  rw [List.countP_map]
  exact List.countP_mono_left fun x _ hx => h x hx

theorem two_le_countP_of_two_mem {pred : α → Bool} {l : List α} {a b : α}
    (ha : a ∈ l) (hb : b ∈ l) (hab : a ≠ b) (hpa : pred a = true) (hpb : pred b = true) :
    2 ≤ List.countP pred l := by
  induction l with
  | nil => simp at ha
  | cons c cs ih =>
    rw [List.countP_cons]
    rcases List.mem_cons.mp ha with rfl | ha2
    · rcases List.mem_cons.mp hb with rfl | hb2
      · exact absurd rfl hab
      · have h1 : 0 < List.countP pred cs := List.countP_pos_iff.mpr ⟨b, hb2, hpb⟩
        rw [if_pos hpa]
        omega
    · rcases List.mem_cons.mp hb with rfl | hb2
      · have h1 : 0 < List.countP pred cs := List.countP_pos_iff.mpr ⟨a, ha2, hpa⟩
        rw [if_pos hpb]
        omega
      · have := ih ha2 hb2
        omega

theorem countReady_resetOrphanedPosts (now : Int) (store : Store) :
    countReady (resetOrphanedPosts now store) ≤ countReady store := by
  unfold countReady resetOrphanedPosts
  refine countP_map_le _ _ _ ?_
  intro x hx
  by_cases ho : isOrphaned now x = true
  · rw [if_pos ho] at hx
    exact absurd hx (by simp [orphanUpdate])
  · rwa [if_neg ho] at hx

theorem countReady_updatePostById_le (store : Store) (pid : Nat)
    (f : PostRecord → PostRecord) (hf : ∀ q, (f q).status ≠ .ready_to_post) :
    countReady (updatePostById store pid f) ≤ countReady store := by
  unfold countReady updatePostById
  refine countP_map_le _ _ _ ?_
  intro x hx
  by_cases hid : x.id = pid
  · rw [if_pos hid] at hx
    exact absurd (by simpa using hx) (hf x)
  · rwa [if_neg hid] at hx

theorem countReady_updatePostById_eq_zero (store : Store) (pid : Nat) (p : PostRecord)
    (hmem : p ∈ store) (hready : p.status = .ready_to_post) (hid : p.id = pid)
    (hcount : countReady store ≤ 1) (f : PostRecord → PostRecord)
    (hf : ∀ q, (f q).status ≠ .ready_to_post) :
    countReady (updatePostById store pid f) = 0 := by
  have hcount2 : List.countP (fun r => decide (r.status = PostStatus.ready_to_post)) store ≤ 1 :=
    hcount
  unfold countReady updatePostById
  rw [List.countP_eq_zero]
  intro x hx hxready
  obtain ⟨q, hq, hqe⟩ := List.mem_map.mp hx
  by_cases hqid : q.id = pid
  · rw [if_pos hqid] at hqe
    rw [← hqe] at hxready
    exact hf q (by simpa using hxready)
  · rw [if_neg hqid] at hqe
    subst hqe
    have hqready : q.status = .ready_to_post := by simpa using hxready
    have hqp : q ≠ p := fun h => hqid (by rw [h, hid])
    have h2 : 2 ≤ List.countP (fun r => decide (r.status = PostStatus.ready_to_post)) store :=
      two_le_countP_of_two_mem hq hmem hqp (by simp [hqready]) (by simp [hready])
    omega

theorem countReady_append_ready (store : Store) (r : PostRecord)
    (hr : r.status = .ready_to_post) :
    countReady (store ++ [r]) = countReady store + 1 := by
  unfold countReady
  rw [List.countP_append, List.countP_cons]
  simp [hr]

theorem countReady_append_nonready (store : Store) (r : PostRecord)
    (hr : r.status ≠ .ready_to_post) :
    countReady (store ++ [r]) = countReady store := by
  unfold countReady
  rw [List.countP_append, List.countP_cons]
  simp [hr]

theorem countReady_eq_zero_of_not_anyReady (store : Store) (h : anyReady store = false) :
    countReady store = 0 := by
  unfold countReady
  rw [List.countP_eq_zero]
  intro a ha hpa
  unfold anyReady at h
  rw [List.any_eq_false] at h
  exact h a ha hpa

/- ### Equation lemmas for publishPhase -/

theorem publishPhase_eq_none (now : Int) (store : Store) (pub : Option String)
    (h : findReadyPost now store = none) :
    publishPhase now pub store = (store, false) := by
  unfold publishPhase
  rw [h]

theorem publishPhase_eq_success (now : Int) (store : Store) (p : PostRecord) (url : String)
    (h : findReadyPost now store = some p) :
    publishPhase now (some url) store =
      (updatePostById store p.id (postedUpdate now url), true) := by
  unfold publishPhase
  rw [h]

theorem publishPhase_eq_failure (now : Int) (store : Store) (p : PostRecord)
    (h : findReadyPost now store = some p) :
    publishPhase now none store =
      (updatePostById store p.id
        (failedUpdate now "Publishing failed or URL not retrieved."), false) := by
  unfold publishPhase
  rw [h]

/-- Publication never increases the number of ready rows, and a successful
publication leaves none. -/
theorem publishPhase_count (now : Int) (pub : Option String) (store : Store)
    (h : countReady store ≤ 1) :
    countReady (publishPhase now pub store).1 ≤ 1 ∧
    ((publishPhase now pub store).2 = true → countReady (publishPhase now pub store).1 = 0) := by
  cases hf : findReadyPost now store with
  | none =>
    rw [publishPhase_eq_none now store pub hf]
    exact ⟨h, by intro hpub; exact absurd hpub (by simp)⟩
  | some p =>
    obtain ⟨hmem, hready, _⟩ := findReadyPost_spec now store p hf
    cases pub with
    | some url =>
      rw [publishPhase_eq_success now store p url hf]
      have h0 := countReady_updatePostById_eq_zero store p.id p hmem hready rfl h
        (postedUpdate now url) (fun q => by simp [postedUpdate])
      dsimp only
      exact ⟨by omega, fun _ => h0⟩
    | none =>
      rw [publishPhase_eq_failure now store p hf]
      have h0 := countReady_updatePostById_eq_zero store p.id p hmem hready rfl h
        (failedUpdate now "Publishing failed or URL not retrieved.")
        (fun q => by simp [failedUpdate])
      dsimp only
      exact ⟨by omega, fun _ => h0⟩

/-- The bootstrap-immediate flow leaves at most one ready row when it starts
from a store with none. -/
theorem immediateFlow_count (env : RunEnv) (store : Store) (entry : PostRecord)
    (h : countReady store = 0) :
    countReady (immediateFlow env store entry) ≤ 1 := by
  unfold immediateFlow
  have hstore1 : countReady (store ++ [{ entry with status := .ready_to_post }]) ≤ 1 := by
    rw [countReady_append_ready _ _ rfl]
    omega
  have hmem : ({ entry with status := PostStatus.ready_to_post } : PostRecord) ∈
      store ++ [{ entry with status := .ready_to_post }] :=
    List.mem_append_right _ (List.mem_singleton.mpr rfl)
  cases hp2 : env.pub2 with
  | some url =>
    dsimp only
    have h0 := countReady_updatePostById_eq_zero _ entry.id _ hmem rfl rfl hstore1
      (postedUpdate env.now url) (fun q => by simp [postedUpdate])
    split_ifs with h3
    · rw [countReady_append_ready _ _ rfl, h0]
    · rw [h0]
      omega
  | none =>
    dsimp only
    have h0 := countReady_updatePostById_eq_zero _ entry.id _ hmem rfl rfl hstore1
      (failedUpdate env.now "Immediate publishing failed or URL not retrieved.")
      (fun q => by simp [failedUpdate])
    rw [h0]
    omega

/-- Starting from a store with no ready row, the preparation phase leaves at
most one. -/
theorem prepareInsertPhase_count (env : RunEnv) (published : Bool) (store : Store)
    (h : countReady store = 0) :
    countReady (prepareInsertPhase env published store) ≤ 1 := by
  unfold prepareInsertPhase
  dsimp only
  split_ifs with h1 h2
  · exact immediateFlow_count env store _ h
  · rw [countReady_append_ready _ _ rfl]
    omega
  · rw [countReady_append_nonready _ _ (by simp)]
    omega

/-- One orchestrator run preserves the at-most-one-ready invariant. -/
theorem runMain_count (env : RunEnv) (store : Store) (h : countReady store ≤ 1) :
    countReady (runMain env store) ≤ 1 := by
  unfold runMain
  dsimp only
  have h1 := countReady_resetOrphanedPosts env.now store
  have hpb := publishPhase_count env.now env.pub1 (resetOrphanedPosts env.now store) (by omega)
  split_ifs with hneed
  · unfold needToPreparePosts at hneed
    rw [Bool.or_eq_true] at hneed
    rcases hneed with hpub | hnone
    · exact prepareInsertPhase_count env _ _ (hpb.2 hpub)
    · exact prepareInsertPhase_count env _ _
        (countReady_eq_zero_of_not_anyReady _ (by simpa using hnone))
  · exact hpb.1

/-- An unexpired ready row is in particular a ready row. -/
theorem countReadyUnexpired_le (t : Int) (store : Store) :
    countReadyUnexpired t store ≤ countReady store := by
  unfold countReadyUnexpired countReady
  refine List.countP_mono_left fun p _ hp => ?_
  simp only [Bool.and_eq_true] at hp
  exact hp.1

/- ### C2: no double-scheduling across runs -/

/-- C2: starting from a store holding at most one `ready_to_post` record,
after any prefix of any sequence of orchestrator runs the store still holds at
most one `ready_to_post` record — in particular at most one with an unexpired
posting window at any observation time `t`.  (A run enters its preparation
step only when it just published the outstanding record or no ready record
exists, and that step inserts at most one ready record.) -/
theorem C2_at_most_one_ready (runs : List RunEnv) (store : Store)
    (h : countReady store ≤ 1) (n : Nat) (t : Int) :
    countReady (applyRuns (runs.take n) store) ≤ 1 ∧
    countReadyUnexpired t (applyRuns (runs.take n) store) ≤ 1 := by
  have key : ∀ rs : List RunEnv, ∀ st : Store, countReady st ≤ 1 →
      countReady (applyRuns rs st) ≤ 1 := by
    intro rs
    induction rs with
    | nil =>
      intro st hst
      simpa [applyRuns] using hst
    | cons e es ih =>
      intro st hst
      have heq : applyRuns (e :: es) st = applyRuns es (runMain e st) := by
        simp [applyRuns]
      rw [heq]
      exact ih _ (runMain_count e st hst)
  have h1 := key (runs.take n) store h
  exact ⟨h1, le_trans (countReadyUnexpired_le t _) h1⟩

/-- A run oracle that publishes the due post and prepares a fresh one. -/
def c2Env : RunEnv :=
  { now := 0, pub1 := some "POSTED_SUCCESSFULLY",
    prep1 := { success := true, postText := some "fresh body text" } }

/-- Witness for `C2_at_most_one_ready`: one run from the empty store. -/
theorem C2_witness :
    countReady ([] : Store) ≤ 1 ∧
    (countReady (applyRuns ([c2Env].take 1) []) ≤ 1 ∧
     countReadyUnexpired 0 (applyRuns ([c2Env].take 1) []) ≤ 1) :=
  ⟨by decide, C2_at_most_one_ready [c2Env] [] (by decide) 1 0⟩

/- ### C9: the error_message discipline -/

theorem errInv_orphanUpdate (p : PostRecord) : errInv (orphanUpdate p) := by
  simp [errInv, orphanUpdate, errorStatus, claimedErrorStatus]

theorem errInv_postedUpdate (now : Int) (url : String) (q : PostRecord) :
    errInv (postedUpdate now url q) := by
  simp [errInv, postedUpdate, errorStatus, claimedErrorStatus]

theorem errInv_failedUpdate (now : Int) (msg : String) (q : PostRecord) :
    errInv (failedUpdate now msg q) := by
  simp [errInv, failedUpdate, errorStatus, claimedErrorStatus]

theorem errInv_resetOrphanedPosts (now : Int) (store : Store)
    (h : ∀ p ∈ store, errInv p) : ∀ p ∈ resetOrphanedPosts now store, errInv p := by
  intro q hq
  unfold resetOrphanedPosts at hq
  obtain ⟨x, hx, hxe⟩ := List.mem_map.mp hq
  by_cases ho : isOrphaned now x = true
  · rw [if_pos ho] at hxe
    rw [← hxe]
    exact errInv_orphanUpdate x
  · rw [if_neg ho] at hxe
    rw [← hxe]
    exact h x hx

theorem errInv_updatePostById (store : Store) (pid : Nat) (f : PostRecord → PostRecord)
    (hf : ∀ q, errInv (f q)) (h : ∀ p ∈ store, errInv p) :
    ∀ p ∈ updatePostById store pid f, errInv p := by
  intro q hq
  unfold updatePostById at hq
  obtain ⟨x, hx, hxe⟩ := List.mem_map.mp hq
  by_cases hid : x.id = pid
  · rw [if_pos hid] at hxe
    rw [← hxe]
    exact hf x
  · rw [if_neg hid] at hxe
    rw [← hxe]
    exact h x hx

theorem errInv_append (store : Store) (r : PostRecord)
    (h : ∀ p ∈ store, errInv p) (hr : errInv r) : ∀ p ∈ store ++ [r], errInv p := by
  intro q hq
  rcases List.mem_append.mp hq with h1 | h1
  · exact h q h1
  · rw [List.mem_singleton.mp h1]
    exact hr

theorem errInv_publishPhase (now : Int) (pub : Option String) (store : Store)
    (h : ∀ p ∈ store, errInv p) : ∀ p ∈ (publishPhase now pub store).1, errInv p := by
  cases hf : findReadyPost now store with
  | none =>
    rw [publishPhase_eq_none now store pub hf]
    exact h
  | some p =>
    cases pub with
    | some url =>
      rw [publishPhase_eq_success now store p url hf]
      exact errInv_updatePostById store p.id _ (errInv_postedUpdate now url) h
    | none =>
      rw [publishPhase_eq_failure now store p hf]
      exact errInv_updatePostById store p.id _
        (errInv_failedUpdate now "Publishing failed or URL not retrieved.") h

theorem errInv_newEntry_ready (env : RunEnv) (published : Bool) (store : Store) :
    errInv ({ newEntry env published store with status := .ready_to_post }) := by
  simp [errInv, newEntry, errorStatus, claimedErrorStatus]

theorem errInv_immediateFlow (env : RunEnv) (store : Store) (entry : PostRecord)
    (h : ∀ p ∈ store, errInv p) (hentry : entry.error_message = none) :
    ∀ p ∈ immediateFlow env store entry, errInv p := by
  unfold immediateFlow
  have hready : errInv ({ entry with status := PostStatus.ready_to_post }) := by
    simp [errInv, hentry, errorStatus, claimedErrorStatus]
  have hstore1 := errInv_append store _ h hready
  cases hp2 : env.pub2 with
  | some url =>
    dsimp only
    split_ifs with h3
    · refine errInv_append _ _ ?_ ?_
      · exact errInv_updatePostById _ entry.id _ (errInv_postedUpdate env.now url) hstore1
      · simp [errInv, errorStatus, claimedErrorStatus]
    · exact errInv_updatePostById _ entry.id _ (errInv_postedUpdate env.now url) hstore1
  | none =>
    dsimp only
    exact errInv_updatePostById _ entry.id _
      (errInv_failedUpdate env.now "Immediate publishing failed or URL not retrieved.") hstore1

theorem errInv_prepareInsertPhase (env : RunEnv) (published : Bool) (store : Store)
    (h : ∀ p ∈ store, errInv p) : ∀ p ∈ prepareInsertPhase env published store, errInv p := by
  unfold prepareInsertPhase
  dsimp only
  split_ifs with h1 h2
  · exact errInv_immediateFlow env store _ h rfl
  · exact errInv_append store _ h (errInv_newEntry_ready env published store)
  · refine errInv_append store _ h ?_
    simp [errInv, newEntry, errorStatus, claimedErrorStatus]

theorem errInv_runMain (env : RunEnv) (store : Store) (h : ∀ p ∈ store, errInv p) :
    ∀ p ∈ runMain env store, errInv p := by
  unfold runMain
  dsimp only
  split_ifs with hneed
  · exact errInv_prepareInsertPhase env _ _
      (errInv_publishPhase env.now env.pub1 _ (errInv_resetOrphanedPosts env.now store h))
  · exact errInv_publishPhase env.now env.pub1 _ (errInv_resetOrphanedPosts env.now store h)

/-- C9 counterexample: the `uncaughtException` handler inserts a
`system_error` row with a non-null `error_message`, and `system_error` is not
in the claim's status set {failed_to_post, generation_failed, missed_schedule}
— so the claimed iff fails on a store the process can write. -/
theorem C9_counterexample :
    ((uncaughtExceptionInsert "TypeError: boom" []).map
      fun p => (p.status, p.error_message.isSome)) = [(PostStatus.system_error, true)] ∧
    claimedErrorStatus .system_error = false := by
  exact ⟨rfl, rfl⟩

/-- C9 (amended): in every store state reachable through the orchestrator's
writes, a row's `error_message` is non-null iff its status is in
{failed_to_post, generation_failed, missed_schedule, system_error} (the
handler-written `system_error` rows also carry one); in particular the update
performed on a successful publish sets `error_message` to null. -/
theorem C9_error_discipline (env : RunEnv) (msg : String) (store : Store)
    (h : ∀ p ∈ store, errInv p) :
    (∀ p ∈ runMain env store, errInv p) ∧
    (∀ p ∈ uncaughtExceptionInsert msg store, errInv p) ∧
    (∀ now url q, (postedUpdate now url q).error_message = none) := by
  refine ⟨errInv_runMain env store h, ?_, fun now url q => rfl⟩
  unfold uncaughtExceptionInsert
  refine errInv_append store _ h ?_
  simp [errInv, errorStatus, claimedErrorStatus]

/-- Witness for `C9_error_discipline`: one run from the empty store. -/
theorem C9_witness :
    (∀ p ∈ ([] : Store), errInv p) ∧
    ((∀ p ∈ runMain c2Env [], errInv p) ∧
     (∀ p ∈ uncaughtExceptionInsert "boom" [], errInv p) ∧
     (∀ now url q, (postedUpdate now url q).error_message = none)) :=
  ⟨by simp, C9_error_discipline c2Env "boom" [] (by simp)⟩
